import Mathlib

/-!
Verification of the ATH (all-time-high) alert script `ath_alert.py`.

The script fetches a daily OHLC price series per symbol, computes the
all-time-high of the `High` column, the percentage distance of the last
`Close` from that high, and the number of candles elapsed since the most
recent bar attaining the high; it alerts (via Telegram) under a
strict-pullback predicate and appends one record per evaluation to a CSV
log file.

Modelling choices:
- Python floats are modelled as exact rationals `ℚ`.
- A bar keeps the two fields the script reads: `high` and `close`.
- The Telegram transport and the possibility of a log-write exception are
  external effects, modelled as explicit inputs (`TransportResult`, a
  `log_write_fails` flag); the CSV file is modelled as an optional list of
  lines (`none` = file does not exist).
- `candles_since_ath` is `Option Nat` (`none` models Python `None`).
-/

/-- One daily bar of the fetched price series; the script only reads the
`High` and `Close` columns. -/
structure Bar where
  high : ℚ
  close : ℚ
deriving DecidableEq

/-- The quantities computed by `check_all_time_high_once` for a non-empty
series (source lines 74-94). -/
structure EvaluationResult where
  current_price : ℚ
  all_time_high : ℚ
  diff_percent : ℚ
  candles_since_ath : Option Nat
deriving DecidableEq

/-- The dictionary appended to the CSV log file (source lines 134-142). -/
structure LogRecord where
  timestamp : String
  symbol : String
  current_price : ℚ
  ath : ℚ
  diff_percent : ℚ
  candles_since_ath : Option Nat
  alert_sent : Bool
deriving DecidableEq

/-- Outcome of the HTTP POST to the Telegram API: either a response with a
status code and body, or a raised transport exception. -/
inductive TransportResult where
  | response (status_code : Nat) (body : String)
  | exception
deriving DecidableEq

/-- `send_telegram_alert` (source lines 25-39): returns `true` exactly on a
200 response; any other status or any exception yields `false`; it never
propagates an exception (in the model: it is a total function into `Bool`). -/
def send_telegram_alert (outcome : TransportResult) : Bool :=
  match outcome with
  | .response status_code _ => status_code == 200
  | .exception => false

/-- A line of the CSV log file: the header row or one data row. -/
inductive CsvLine where
  | header
  | row (log_data : LogRecord)
deriving DecidableEq

/-- Number of header lines in a CSV file content. -/
def countHeader (lines : List CsvLine) : Nat :=
  lines.countP (fun line => match line with | .header => true | .row _ => false)

/-- `append_to_csv` (source lines 42-49): if the file does not exist
(`none`), `df.to_csv` writes the header followed by the record; otherwise
the record is appended with `header=False`. Returns the new file content. -/
def append_to_csv (file : Option (List CsvLine)) (log_data : LogRecord) : List CsvLine :=
  match file with
  | none => [CsvLine.header, CsvLine.row log_data]
  | some lines => lines ++ [CsvLine.row log_data]

/-- The ascending list of integer positions at which the series of highs
equals `a`: embeds the boolean-mask indexing
`data.index[data["High"] == all_time_high]` of source line 84. -/
def athPositions : List ℚ → ℚ → List Nat
  | [], _ => []
  | x :: xs, a => (if x = a then [0] else []) ++ (athPositions xs a).map (· + 1)

/-- Source lines 85-94: `None` when no position matches (defensive branch),
otherwise `(len(data) - 1) - last_ath_pos` for the most recent matching
position. -/
def candlesSinceAth (highs : List ℚ) (a : ℚ) : Option Nat :=
  match (athPositions highs a).getLast? with
  | none => none
  | some last_ath_pos => some (highs.length - 1 - last_ath_pos)

/-- The pure evaluator slice of `check_all_time_high_once` (source lines
66-94): `none` for an empty series; otherwise the last close, the maximum
high, the clamped percentage distance from the maximum, and the candles
since the most recent bar attaining the maximum. -/
def evaluate (series : List Bar) : Option EvaluationResult :=
  match series with
  | [] => none
  | b :: bs =>
      let current_price := ((b :: bs).getLast (List.cons_ne_nil b bs)).close
      let all_time_high := (bs.map Bar.high).foldl max b.high
      let diff_percent :=
        if current_price ≥ all_time_high then (0 : ℚ)
        else (all_time_high - current_price) / all_time_high * 100
      let candles_since_ath := candlesSinceAth ((b :: bs).map Bar.high) all_time_high
      some ⟨current_price, all_time_high, diff_percent, candles_since_ath⟩

/-- Source line 104: `current_price < all_time_high`. -/
def condition_price_below_ath (r : EvaluationResult) : Bool :=
  decide (r.current_price < r.all_time_high)

/-- Source line 105: `diff_percent <= threshold_pct`. -/
def condition_within_pct (r : EvaluationResult) (threshold_pct : ℚ) : Bool :=
  decide (r.diff_percent ≤ threshold_pct)

/-- Source line 106: `(candles_since_ath is not None) and
(candles_since_ath > min_candles_since_ath)`. -/
def condition_candles (r : EvaluationResult) (min_candles_since_ath : ℤ) : Bool :=
  match r.candles_since_ath with
  | none => false
  | some c => decide ((c : ℤ) > min_candles_since_ath)

/-- Source line 108: the strict-pullback alert decision. -/
def should_alert (r : EvaluationResult) (threshold_pct : ℚ)
    (min_candles_since_ath : ℤ) : Bool :=
  condition_price_below_ath r && condition_within_pct r threshold_pct &&
    condition_candles r min_candles_since_ath

/-- The two alert-policy variants described by the spec (section 4.2). -/
inductive AlertPolicy where
  | simpleProximity
  | strictPullback
deriving DecidableEq

/-- Modelled from the spec: the simple-proximity policy variant lives in the
repository's other script evolutions, which are not included under `src/`;
spec section 4.2 defines it as alert iff `diff_percent <= threshold_pct`
and requires both policies as one configurable predicate. The
strict-pullback arm is the `should_alert` of source line 108. -/
def should_alert_policy (policy : AlertPolicy) (r : EvaluationResult)
    (threshold_pct : ℚ) (min_candles_since_ath : ℤ) : Bool :=
  match policy with
  | .simpleProximity => decide (r.diff_percent ≤ threshold_pct)
  | .strictPullback => should_alert r threshold_pct min_candles_since_ath

/-- The `log_data` dictionary of source lines 134-142. -/
def mkLogRecord (now symbol : String) (r : EvaluationResult)
    (alert_sent : Bool) : LogRecord :=
  ⟨now, symbol, r.current_price, r.all_time_high, r.diff_percent,
    r.candles_since_ath, alert_sent⟩

/-- Per-symbol external circumstances of one check: the fetched series, the
outcome the Telegram transport would produce, and whether the CSV append
raises an exception. -/
structure SymbolInput where
  symbol : String
  series : List Bar
  transport : TransportResult
  log_write_fails : Bool
deriving DecidableEq

/-- The value `(symbol, alert_sent, log_data)` returned by
`check_all_time_high_once`, together with the list of records actually
appended to the log file during the call. -/
structure CheckResult where
  symbol : String
  alert_sent : Bool
  log_record : Option LogRecord
  log_writes : List LogRecord
deriving DecidableEq

/-- `check_all_time_high_once` (source lines 55-149): empty series returns
`(symbol, False, None)` before any log write; otherwise the alert predicate
is applied, Telegram is called only when it fires, the log record is built
with the delivery result, and the CSV append runs last — an exception
there is caught by the enclosing `except`, which returns
`(symbol, False, None)`. -/
def check_all_time_high_once (inp : SymbolInput) (now : String)
    (threshold_pct : ℚ) (min_candles_since_ath : ℤ) : CheckResult :=
  match evaluate inp.series with
  | none => ⟨inp.symbol, false, none, []⟩
  | some r =>
      let sa := should_alert r threshold_pct min_candles_since_ath
      let alert_sent := if sa then send_telegram_alert inp.transport else false
      let log_data := mkLogRecord now inp.symbol r alert_sent
      if inp.log_write_fails then ⟨inp.symbol, false, none, []⟩
      else ⟨inp.symbol, alert_sent, some log_data, [log_data]⟩

/-- The body of the `__main__` loop (source lines 163-171), carrying the
`processed` counter and the `alerted_symbols` accumulator. -/
def run_batch_loop (now : String) (threshold_pct : ℚ) (min_candles_since_ath : ℤ) :
    Nat → List String → List SymbolInput → Nat × List String
  | processed, alerted, [] => (processed, alerted)
  | processed, alerted, inp :: rest =>
      let result := check_all_time_high_once inp now threshold_pct min_candles_since_ath
      run_batch_loop now threshold_pct min_candles_since_ath (processed + 1)
        (if result.alert_sent then alerted ++ [inp.symbol] else alerted) rest

/-- The `__main__` loop (source lines 156-171): processes every symbol in
order, counting processed symbols and collecting the symbols whose check
reported `alert_sent`. -/
def run_batch (inputs : List SymbolInput) (now : String) (threshold_pct : ℚ)
    (min_candles_since_ath : ℤ) : Nat × List String :=
  run_batch_loop now threshold_pct min_candles_since_ath 0 [] inputs

/-! Helper lemmas shared by the claim theorems. -/

theorem athPositions_eq_nil (l : List ℚ) (a : ℚ) :
    athPositions l a = [] ↔ a ∉ l := by
  induction l with
  | nil => simp [athPositions]
  | cons x xs ih =>
      by_cases hx : x = a
      · subst hx
        simp [athPositions]
      · simp only [athPositions, if_neg hx, List.nil_append, List.map_eq_nil_iff, ih,
          List.mem_cons]
        constructor
        · intro h hc
          rcases hc with h1 | h2
          · exact hx h1.symm
          · exact h h2
        · intro h hmem
          exact h (Or.inr hmem)

theorem athPositions_getLast?_eq (l : List ℚ) (a : ℚ) :
    ∀ (j : Nat) (hj : j < l.length), l.get ⟨j, hj⟩ = a →
    (∀ (k : Nat) (hk : k < l.length), j < k → l.get ⟨k, hk⟩ ≠ a) →
    (athPositions l a).getLast? = some j := by
  induction l with
  | nil =>
      intro j hj
      simp at hj
  | cons x xs ih =>
      intro j hj hja hlater
      cases j with
      | zero =>
          have hx : x = a := hja
          have hxs : a ∉ xs := by
            intro hmem
            obtain ⟨⟨k, hk⟩, hk2⟩ := List.mem_iff_get.mp hmem
            exact hlater (k + 1) (by simpa using hk) (Nat.succ_pos k) hk2
          have hnil : athPositions xs a = [] := (athPositions_eq_nil xs a).mpr hxs
          simp [athPositions, hx, hnil]
      | succ j' =>
          have hj' : j' < xs.length := by simpa using hj
          have hga : xs.get ⟨j', hj'⟩ = a := hja
          have hlater' : ∀ (k : Nat) (hk : k < xs.length), j' < k →
              xs.get ⟨k, hk⟩ ≠ a := by
            intro k hk hjk
            exact hlater (k + 1) (by simpa using hk) (by omega)
          have hxs := ih j' hj' hga hlater'
          have hne : (athPositions xs a).map (· + 1) ≠ [] := by
            intro hemp
            rw [List.map_eq_nil_iff] at hemp
            rw [hemp] at hxs
            simp at hxs
          rw [athPositions, List.getLast?_append_of_ne_nil _ hne,
            List.getLast?_map, hxs]
          rfl

theorem le_foldl_max (l : List ℚ) : ∀ a : ℚ, a ≤ l.foldl max a := by
  induction l with
  | nil => intro a; exact le_refl a
  | cons x xs ih => intro a; exact le_trans (le_max_left a x) (ih (max a x))

theorem mem_le_foldl_max (l : List ℚ) : ∀ (a x : ℚ), x ∈ l → x ≤ l.foldl max a := by
  induction l with
  | nil =>
      intro a x hx
      simp at hx
  | cons y ys ih =>
      intro a x hx
      rcases List.mem_cons.mp hx with h | h
      · subst h
        exact le_trans (le_max_right a x) (le_foldl_max ys (max a x))
      · exact ih (max a y) x h

theorem foldl_max_mem (l : List ℚ) : ∀ a : ℚ, l.foldl max a = a ∨ l.foldl max a ∈ l := by
  induction l with
  | nil =>
      intro a
      left
      rfl
  | cons x xs ih =>
      intro a
      have hstep : (x :: xs).foldl max a = xs.foldl max (max a x) := rfl
      rcases ih (max a x) with h | h
      · rcases max_choice a x with hm | hm
        · left
          rw [hstep, h, hm]
        · right
          rw [hstep, h, hm]
          exact List.mem_cons_self x xs
      · right
        rw [hstep]
        exact List.mem_cons_of_mem x h

theorem evaluate_fields (b : Bar) (bs : List Bar) (r : EvaluationResult)
    (hev : evaluate (b :: bs) = some r) :
    r.current_price = ((b :: bs).getLast (List.cons_ne_nil b bs)).close ∧
    r.all_time_high = (bs.map Bar.high).foldl max b.high ∧
    r.diff_percent = (if r.current_price ≥ r.all_time_high then (0 : ℚ)
      else (r.all_time_high - r.current_price) / r.all_time_high * 100) ∧
    r.candles_since_ath =
      candlesSinceAth ((b :: bs).map Bar.high) r.all_time_high := by
  simp only [evaluate, Option.some.injEq] at hev
  subst hev
  exact ⟨rfl, rfl, rfl, rfl⟩

theorem run_batch_loop_fst (now : String) (t : ℚ) (m : ℤ) :
    ∀ (inputs : List SymbolInput) (processed : Nat) (alerted : List String),
      (run_batch_loop now t m processed alerted inputs).1 = processed + inputs.length := by
  intro inputs
  induction inputs with
  | nil =>
      intro processed alerted
      simp [run_batch_loop]
  | cons inp rest ih =>
      intro processed alerted
      rw [run_batch_loop]
      rw [ih]
      simp
      omega

/-! Claim theorems. -/

/-- C1: Strict-pullback alert decision: `should_alert` is true iff
`current_price < all_time_high`, `diff_percent ≤ threshold_pct`, and
`candles_since_ath` is non-null with value strictly greater than
`min_candles_since_ath`; a null `candles_since_ath` simply makes the
decision false (the model is a total boolean function, nothing throws), so
in particular no alert fires when `current_price = all_time_high` or when
`candles_since_ath ≤ min_candles_since_ath`. -/
theorem C1_strict_pullback_alert_iff (r : EvaluationResult) (t : ℚ) (m : ℤ) :
    (should_alert r t m = true ↔
      (r.current_price < r.all_time_high ∧ r.diff_percent ≤ t ∧
        ∃ c : Nat, r.candles_since_ath = some c ∧ m < (c : ℤ))) ∧
    (r.candles_since_ath = none → should_alert r t m = false) ∧
    (r.current_price = r.all_time_high → should_alert r t m = false) ∧
    (∀ c : Nat, r.candles_since_ath = some c → (c : ℤ) ≤ m →
      should_alert r t m = false) := by
  refine ⟨?_, ?_, ?_, ?_⟩
  · cases hc : r.candles_since_ath with
    | none =>
        simp [should_alert, condition_price_below_ath, condition_within_pct,
          condition_candles, hc]
    | some c =>
        simp [should_alert, condition_price_below_ath, condition_within_pct,
          condition_candles, hc, and_assoc]
  · intro hc
    simp [should_alert, condition_candles, hc]
  · intro hc
    simp [should_alert, condition_price_below_ath, hc]
  · intro c hc hle
    simp [should_alert, condition_candles, hc, not_lt.mpr hle]

/-- Witness for C1: a concrete evaluation result 2 percent below a stale
high does alert under thresholds 2 and 10. -/
theorem C1_strict_pullback_alert_iff_witness :
    should_alert ⟨98, 100, 2, some 11⟩ 2 10 = true :=
  (C1_strict_pullback_alert_iff ⟨98, 100, 2, some 11⟩ 2 10).1.mpr
    ⟨by decide, by decide, 11, rfl, by decide⟩

/-- C5: an empty fetched series is skipped: the check returns
`(symbol, False, None)` and performs no log write, and the batch still
processes every remaining symbol. -/
theorem C5_empty_series_skip (symbol now : String) (outcome : TransportResult)
    (lf : Bool) (t : ℚ) (m : ℤ) :
    check_all_time_high_once ⟨symbol, [], outcome, lf⟩ now t m =
      ⟨symbol, false, none, []⟩ ∧
    (∀ rest : List SymbolInput,
      (run_batch (⟨symbol, [], outcome, lf⟩ :: rest) now t m).1 =
        rest.length + 1) := by
  refine ⟨rfl, ?_⟩
  intro rest
  simp only [run_batch, run_batch_loop]
  rw [run_batch_loop_fst]
  omega

/-- C6: the notifier returns `true` exactly on a 200 response and `false`
on any other status or any transport exception (it is a total boolean
function, so nothing propagates past its boundary); whenever delivery
would report failure, the log record written by the per-symbol check
carries `alert_sent = false`; and the batch processes every symbol
regardless. -/
theorem C6_notifier_boundary :
    (∀ (status : Nat) (body : String),
      send_telegram_alert (TransportResult.response status body) = true ↔
        status = 200) ∧
    (send_telegram_alert TransportResult.exception = false) ∧
    (∀ (inp : SymbolInput) (now : String) (t : ℚ) (m : ℤ) (lr : LogRecord),
      send_telegram_alert inp.transport = false →
      (check_all_time_high_once inp now t m).log_record = some lr →
      lr.alert_sent = false) ∧
    (∀ (inputs : List SymbolInput) (now : String) (t : ℚ) (m : ℤ),
      (run_batch inputs now t m).1 = inputs.length) := by
  refine ⟨?_, rfl, ?_, ?_⟩
  · intro status body
    simp [send_telegram_alert]
  · intro inp now t m lr hsend hlog
    unfold check_all_time_high_once at hlog
    cases hev : evaluate inp.series with
    | none =>
        rw [hev] at hlog
        simp at hlog
    | some r =>
        rw [hev] at hlog
        by_cases hlf : inp.log_write_fails
        · simp [hlf] at hlog
        · simp only [hlf, if_false, Bool.false_eq_true, Option.some.injEq] at hlog
          rw [← hlog]
          simp [mkLogRecord, hsend]
  · intro inputs now t m
    rw [run_batch, run_batch_loop_fst]
    omega

/-- Witness for C6: a 200 response is reported as delivered. -/
theorem C6_notifier_boundary_witness :
    send_telegram_alert (TransportResult.response 200 "ok") = true :=
  (C6_notifier_boundary.1 200 "ok").mpr rfl

/-- C7: the strict-pullback decision is monotone in the threshold: raising
`threshold_pct` never turns a firing decision into a silent one. -/
theorem C7_threshold_monotone (r : EvaluationResult) (m : ℤ) (t1 t2 : ℚ)
    (h12 : t1 ≤ t2) (h : should_alert r t1 m = true) :
    should_alert r t2 m = true := by
  simp only [should_alert, Bool.and_eq_true, condition_within_pct,
    decide_eq_true_eq] at h ⊢
  exact ⟨⟨h.1.1, le_trans h.1.2 h12⟩, h.2⟩

/-- Witness for C7: an alert fired at threshold 2 still fires at 3. -/
theorem C7_threshold_monotone_witness :
    (2 : ℚ) ≤ 3 ∧ should_alert ⟨98, 100, 2, some 11⟩ 3 10 = true :=
  ⟨by decide,
    C7_threshold_monotone ⟨98, 100, 2, some 11⟩ 10 2 3 (by decide) (by decide)⟩

/-- C8: appending to a non-existent log file creates it with a header row
followed by the record; appending to an existing file adds only the record,
so the header count is one after the first write and is preserved by every
later append. -/
theorem C8_header_once (log_data : LogRecord) (lines : List CsvLine) :
    append_to_csv none log_data = [CsvLine.header, CsvLine.row log_data] ∧
    append_to_csv (some lines) log_data = lines ++ [CsvLine.row log_data] ∧
    countHeader (append_to_csv none log_data) = 1 ∧
    countHeader (append_to_csv (some lines) log_data) = countHeader lines := by
  refine ⟨rfl, rfl, rfl, ?_⟩
  simp [countHeader, append_to_csv, List.countP_append, List.countP_cons]

/-- C10: if the CSV append raises after the Telegram alert was already
delivered, the enclosing handler returns `(symbol, False, None)`, so no log
record exists and the batch reports the symbol as not alerted. -/
theorem C10_log_failure_reported_not_sent (inp : SymbolInput) (now : String)
    (t : ℚ) (m : ℤ) (hlf : inp.log_write_fails = true) :
    check_all_time_high_once inp now t m = ⟨inp.symbol, false, none, []⟩ ∧
    run_batch [inp] now t m = (1, []) := by
  have h1 : check_all_time_high_once inp now t m = ⟨inp.symbol, false, none, []⟩ := by
    unfold check_all_time_high_once
    cases evaluate inp.series with
    | none => rfl
    | some r => simp [hlf]
  refine ⟨h1, ?_⟩
  simp [run_batch, run_batch_loop, h1]

/-- Witness for C10: a symbol one percent below a stale high with a 200
transport but a failing log append is reported as not sent with no record. -/
theorem C10_log_failure_reported_not_sent_witness :
    (SymbolInput.mk "RELIANCE.NS"
        [Bar.mk 100 99, Bar.mk 90 90, Bar.mk 90 90, Bar.mk 90 90, Bar.mk 90 90,
         Bar.mk 90 90, Bar.mk 90 90, Bar.mk 90 90, Bar.mk 90 90, Bar.mk 90 90,
         Bar.mk 90 90, Bar.mk 90 99]
        (TransportResult.response 200 "ok") true).log_write_fails = true ∧
    check_all_time_high_once
        (SymbolInput.mk "RELIANCE.NS"
          [Bar.mk 100 99, Bar.mk 90 90, Bar.mk 90 90, Bar.mk 90 90, Bar.mk 90 90,
           Bar.mk 90 90, Bar.mk 90 90, Bar.mk 90 90, Bar.mk 90 90, Bar.mk 90 90,
           Bar.mk 90 90, Bar.mk 90 99]
          (TransportResult.response 200 "ok") true)
        "2026-10-12 00:00:00" 2 10 = ⟨"RELIANCE.NS", false, none, []⟩ :=
  ⟨rfl,
    (C10_log_failure_reported_not_sent
      (SymbolInput.mk "RELIANCE.NS"
        [Bar.mk 100 99, Bar.mk 90 90, Bar.mk 90 90, Bar.mk 90 90, Bar.mk 90 90,
         Bar.mk 90 90, Bar.mk 90 90, Bar.mk 90 90, Bar.mk 90 90, Bar.mk 90 90,
         Bar.mk 90 90, Bar.mk 90 99]
        (TransportResult.response 200 "ok") true)
      "2026-10-12 00:00:00" 2 10 rfl).1⟩

theorem evaluate_ath_mem (b : Bar) (bs : List Bar) (r : EvaluationResult)
    (hev : evaluate (b :: bs) = some r) :
    r.all_time_high ∈ (b :: bs).map Bar.high := by
  obtain ⟨-, hath, -, -⟩ := evaluate_fields b bs r hev
  rw [hath, List.map_cons]
  rcases foldl_max_mem (bs.map Bar.high) b.high with h | h
  · rw [h]
    exact List.mem_cons_self _ _
  · exact List.mem_cons_of_mem _ h

theorem evaluate_high_le (b : Bar) (bs : List Bar) (r : EvaluationResult)
    (hev : evaluate (b :: bs) = some r) :
    ∀ bar ∈ (b :: bs), bar.high ≤ r.all_time_high := by
  obtain ⟨-, hath, -, -⟩ := evaluate_fields b bs r hev
  intro bar hmem
  rw [hath]
  rcases List.mem_cons.mp hmem with h | h
  · subst h
    exact le_foldl_max (bs.map Bar.high) bar.high
  · exact mem_le_foldl_max (bs.map Bar.high) b.high bar.high
      (List.mem_map_of_mem Bar.high h)

/-- C2: for every non-empty series, `candles_since_ath` is the number of
bars strictly after the most recent bar whose high equals
`all_time_high` — that is, `(last index) - (index of the last attaining
bar)`; consequently it is `0` when the last bar attains the maximum and
`N - 1` when only the first of `N` bars attains it. -/
theorem C2_candles_since_ath_counts (series : List Bar) (r : EvaluationResult)
    (hev : evaluate series = some r) :
    (∀ (j : Nat) (hj : j < series.length),
      (series.get ⟨j, hj⟩).high = r.all_time_high →
      (∀ (k : Nat) (hk : k < series.length), j < k →
        (series.get ⟨k, hk⟩).high ≠ r.all_time_high) →
      r.candles_since_ath = some (series.length - 1 - j)) ∧
    (∀ (hne : series ≠ []), (series.getLast hne).high = r.all_time_high →
      r.candles_since_ath = some 0) ∧
    (∀ (hne : series ≠ []),
      (series.get ⟨0, List.length_pos.mpr hne⟩).high = r.all_time_high →
      (∀ (k : Nat) (hk : k < series.length), 0 < k →
        (series.get ⟨k, hk⟩).high ≠ r.all_time_high) →
      r.candles_since_ath = some (series.length - 1)) := by
  cases series with
  | nil => simp [evaluate] at hev
  | cons b bs =>
      obtain ⟨-, -, -, hcsa⟩ := evaluate_fields b bs r hev
      have main : ∀ (j : Nat) (hj : j < (b :: bs).length),
          ((b :: bs).get ⟨j, hj⟩).high = r.all_time_high →
          (∀ (k : Nat) (hk : k < (b :: bs).length), j < k →
            ((b :: bs).get ⟨k, hk⟩).high ≠ r.all_time_high) →
          r.candles_since_ath = some ((b :: bs).length - 1 - j) := by
        intro j hj hja hlater
        have hjh : j < ((b :: bs).map Bar.high).length := by simpa using hj
        have hgj : ((b :: bs).map Bar.high).get ⟨j, hjh⟩ = r.all_time_high := by
          simp only [List.get_eq_getElem, List.getElem_map]
          simpa [List.get_eq_getElem] using hja
        have hlater2 : ∀ (k : Nat) (hk : k < ((b :: bs).map Bar.high).length),
            j < k → ((b :: bs).map Bar.high).get ⟨k, hk⟩ ≠ r.all_time_high := by
          intro k hk hjk
          simp only [List.get_eq_getElem, List.getElem_map]
          have hkl : k < (b :: bs).length := by simpa using hk
          simpa [List.get_eq_getElem] using hlater k hkl hjk
        have hlast := athPositions_getLast?_eq ((b :: bs).map Bar.high)
          r.all_time_high j hjh hgj hlater2
        rw [hcsa]
        unfold candlesSinceAth
        rw [hlast]
        simp
      refine ⟨main, ?_, ?_⟩
      · intro hne hlastbar
        have hlen : (b :: bs).length - 1 < (b :: bs).length := by simp
        have hget : ((b :: bs).get ⟨(b :: bs).length - 1, hlen⟩).high =
            r.all_time_high := by
          have h1 : (b :: bs).get ⟨(b :: bs).length - 1, hlen⟩ =
              (b :: bs).getLast hne := by
            rw [List.getLast_eq_getElem]
            simp [List.get_eq_getElem]
          rw [h1]
          exact hlastbar
        have hnone : ∀ (k : Nat) (hk : k < (b :: bs).length),
            (b :: bs).length - 1 < k →
            ((b :: bs).get ⟨k, hk⟩).high ≠ r.all_time_high := by
          intro k hk hlt
          exact absurd hlt (by omega)
        have hmain := main ((b :: bs).length - 1) hlen hget hnone
        simpa [Nat.sub_self] using hmain
      · intro hne hhead hlater
        have hmain := main 0 (List.length_pos.mpr hne) hhead
          (fun k hk hlt => hlater k hk hlt)
        simpa using hmain

/-- Witness for C2: in a two-bar series whose first bar attains the
maximum high, `candles_since_ath` is `1`. -/
theorem C2_candles_since_ath_counts_witness :
    evaluate [Bar.mk 100 50, Bar.mk 90 100] =
      some (EvaluationResult.mk 100 100 0 (some 1)) ∧
    (EvaluationResult.mk 100 100 0 (some 1)).candles_since_ath = some 1 :=
  ⟨by decide,
    (C2_candles_since_ath_counts [Bar.mk 100 50, Bar.mk 90 100]
        (EvaluationResult.mk 100 100 0 (some 1)) (by decide)).1
      0 (by decide) (by decide)
      (by
        intro k hk h0
        have hk1 : k = 1 := by
          simp at hk
          omega
        subst hk1
        show (Bar.mk 90 100).high ≠
          (EvaluationResult.mk 100 100 0 (some 1)).all_time_high
        decide)⟩

/-- C3: `all_time_high` is the maximum high over the whole series and
`current_price` the last bar's close; `diff_percent` is clamped to `0`
when `current_price ≥ all_time_high` and equals
`(all_time_high - current_price) / all_time_high * 100` otherwise; with
positive prices it always lies in the interval `[0, 100]`. -/
theorem C3_diff_percent_clamped (series : List Bar) (r : EvaluationResult)
    (hev : evaluate series = some r) :
    (r.all_time_high ∈ series.map Bar.high ∧
      ∀ bar ∈ series, bar.high ≤ r.all_time_high) ∧
    (∀ hne : series ≠ [], r.current_price = (series.getLast hne).close) ∧
    (r.all_time_high ≤ r.current_price → r.diff_percent = 0) ∧
    (r.current_price < r.all_time_high →
      r.diff_percent =
        (r.all_time_high - r.current_price) / r.all_time_high * 100) ∧
    ((∀ bar ∈ series, 0 < bar.high ∧ 0 < bar.close) →
      0 ≤ r.diff_percent ∧ r.diff_percent ≤ 100) := by
  cases series with
  | nil => simp [evaluate] at hev
  | cons b bs =>
      obtain ⟨hcp, -, hdiff, -⟩ := evaluate_fields b bs r hev
      have hle := evaluate_high_le b bs r hev
      refine ⟨⟨evaluate_ath_mem b bs r hev, hle⟩, ?_, ?_, ?_, ?_⟩
      · intro hne
        exact hcp
      · intro hge
        rw [hdiff, if_pos hge]
      · intro hlt
        rw [hdiff, if_neg (not_le.mpr hlt)]
      · intro hp
        have hath_pos : 0 < r.all_time_high :=
          lt_of_lt_of_le (hp b (List.mem_cons_self b bs)).1
            (hle b (List.mem_cons_self b bs))
        have hcp_pos : 0 < r.current_price := by
          rw [hcp]
          exact (hp ((b :: bs).getLast (List.cons_ne_nil b bs))
            (List.getLast_mem (List.cons_ne_nil b bs))).2
        rcases le_or_lt r.all_time_high r.current_price with hge | hlt
        · rw [hdiff, if_pos hge]
          norm_num
        · rw [hdiff, if_neg (not_le.mpr hlt)]
          constructor
          · apply mul_nonneg
            · exact div_nonneg (by linarith) (le_of_lt hath_pos)
            · norm_num
          · have h1 : (r.all_time_high - r.current_price) / r.all_time_high ≤ 1 :=
              (div_le_one hath_pos).mpr (by linarith)
            calc (r.all_time_high - r.current_price) / r.all_time_high * 100
                ≤ 1 * 100 := by
                  exact mul_le_mul_of_nonneg_right h1 (by norm_num)
              _ = 100 := by norm_num

/-- Witness for C3: a single bar closing exactly at its high gives a
distance of zero, inside the interval. -/
theorem C3_diff_percent_clamped_witness :
    0 ≤ (EvaluationResult.mk 100 100 0 (some 0)).diff_percent ∧
    (EvaluationResult.mk 100 100 0 (some 0)).diff_percent ≤ 100 :=
  (C3_diff_percent_clamped [Bar.mk 100 100]
    (EvaluationResult.mk 100 100 0 (some 0)) (by decide)).2.2.2.2 (by decide)

/-- C4: the simple-proximity policy is one arm of the configurable
predicate `should_alert_policy`; under it the decision is true iff
`diff_percent ≤ threshold_pct`, and in particular a price at or above the
all-time high (whose computed `diff_percent` is `0`) alerts for every
non-negative threshold. -/
theorem C4_simple_proximity_policy (r : EvaluationResult) (t : ℚ) (m : ℤ) :
    (should_alert_policy AlertPolicy.simpleProximity r t m = true ↔
      r.diff_percent ≤ t) ∧
    (∀ series : List Bar, evaluate series = some r →
      r.all_time_high ≤ r.current_price → 0 ≤ t →
      should_alert_policy AlertPolicy.simpleProximity r t m = true) := by
  constructor
  · simp [should_alert_policy]
  · intro series hev hge ht
    have hdiff : r.diff_percent = 0 := by
      cases series with
      | nil => simp [evaluate] at hev
      | cons b bs =>
          obtain ⟨-, -, hdiff, -⟩ := evaluate_fields b bs r hev
          rw [hdiff, if_pos hge]
    simp [should_alert_policy, hdiff, ht]

/-- Witness for C4: a result exactly at the high (distance zero) alerts
under the simple-proximity policy with threshold 2. -/
theorem C4_simple_proximity_policy_witness :
    should_alert_policy AlertPolicy.simpleProximity
      (EvaluationResult.mk 100 100 0 (some 0)) 2 10 = true :=
  (C4_simple_proximity_policy (EvaluationResult.mk 100 100 0 (some 0)) 2 10).1.mpr
    (by decide)

/-- C9: the defensive null branch is unreachable: for every non-empty
series (highs are exact rationals in the model, so there is no NaN), the
maximum is attained by some bar, hence `candles_since_ath` is never null. -/
theorem C9_no_defensive_null (series : List Bar) (r : EvaluationResult)
    (hev : evaluate series = some r) : r.candles_since_ath ≠ none := by
  cases series with
  | nil => simp [evaluate] at hev
  | cons b bs =>
      obtain ⟨-, -, -, hcsa⟩ := evaluate_fields b bs r hev
      have hmem := evaluate_ath_mem b bs r hev
      have hpos : athPositions ((b :: bs).map Bar.high) r.all_time_high ≠ [] := by
        intro hemp
        exact (athPositions_eq_nil _ _).mp hemp hmem
      obtain ⟨p, hgl⟩ : ∃ p,
          (athPositions ((b :: bs).map Bar.high) r.all_time_high).getLast? =
            some p := by
        cases hgl : (athPositions ((b :: bs).map Bar.high)
            r.all_time_high).getLast? with
        | none => exact absurd (List.getLast?_eq_none_iff.mp hgl) hpos
        | some p => exact ⟨p, rfl⟩
      rw [hcsa]
      unfold candlesSinceAth
      rw [hgl]
      simp

/-- Witness for C9: the single-bar series has a non-null
`candles_since_ath`. -/
theorem C9_no_defensive_null_witness :
    (EvaluationResult.mk 100 100 0 (some 0)).candles_since_ath ≠ none :=
  C9_no_defensive_null [Bar.mk 100 100]
    (EvaluationResult.mk 100 100 0 (some 0)) (by decide)
